import Mathlib

/-!
Verification of the pointer-ownership abstraction layer of `intrusive-rs`
(`src/pointer_ops.rs` and `src/unsafe_ref.rs`), as a shallow embedding.

A Rust `*const T` is modelled as a `RawPtr`: an address together with the
metadata word that a pointer to a dynamically-sized value carries (length or
vtable address); for sized values the metadata word is irrelevant but still
carried, so "preserved bit-for-bit" is expressible. Each ownership handle
(`&T`, `Box`, `Rc`, `Arc`, `UnsafeRef`, `UnsafeMut`, and `Pin` of each) is a
structure holding the `RawPtr` it owns. The reference-counted allocations
live in an explicit heap: an association list from addresses to cells holding
the value, the strong count, and the number of outstanding `Weak` references
(Rust's `Rc`/`Arc` track the latter via their weak count; `Rc::get_mut`
checks both). Operations that in Rust mutate the allocation's counts are
state-passing functions on that heap.
-/

namespace Intrusive

/-- A raw pointer `*const T` / `*mut T`: the address, and the metadata word of
a pointer to a dynamically-sized value (`0` and unused for sized values).
`Rc::into_raw`, `Box::into_raw` etc. return such a value unchanged in both
halves. -/
structure RawPtr where
  addr : Nat
  metadata : Nat
deriving DecidableEq

/-- A borrowed reference `&'a T` (the `DefaultPointerOps<&'a T>` handle):
just the address of the referent, no ownership. -/
structure Ref (V : Type) where
  ptr : RawPtr
deriving DecidableEq

/-- A uniquely-owned allocation `Box<T>`: holds the address of its
allocation. -/
structure Box (V : Type) where
  ptr : RawPtr
deriving DecidableEq

/-- A non-atomically reference-counted handle `Rc<T>`: holds the address of
the shared allocation; the counts live in the heap cell at that address. -/
structure Rc (V : Type) where
  ptr : RawPtr
deriving DecidableEq

/-- An atomically reference-counted handle `Arc<T>`; structurally like `Rc`
but with its own operations (the atomicity of the count updates is not
observable in this sequential model). -/
structure Arc (V : Type) where
  ptr : RawPtr
deriving DecidableEq

/-- `UnsafeRef<T>` (`src/unsafe_ref.rs` lines 28-50): an unchecked shared
pointer, a bare `NonNull<T>` with no reference count. The non-nullness of
`ptr` (`addr ≠ 0`) is the precondition of `NonNull::new_unchecked`, stated as
a hypothesis where it matters rather than baked into the type. -/
structure UnsafeRef (V : Type) where
  ptr : RawPtr
deriving DecidableEq

/-- `UnsafeMut<T>` (`src/unsafe_ref.rs` lines 126-148): an unchecked unique
pointer, a bare `NonNull<T>`. -/
structure UnsafeMut (V : Type) where
  ptr : RawPtr
deriving DecidableEq

/-- `Pin<P>`: a transparent wrapper asserting the pointee never moves;
`Pin::new_unchecked` and `Pin::into_inner_unchecked` wrap and unwrap. -/
structure Pin (P : Type) where
  pointer : P
deriving DecidableEq

/-- `Pin::new_unchecked`. -/
def Pin.new_unchecked {P : Type} (p : P) : Pin P :=
  ⟨p⟩

/-- `Pin::into_inner_unchecked`. -/
def Pin.into_inner_unchecked {P : Type} (p : Pin P) : P :=
  p.pointer

/-! ### The reference-counted heap

A cell of an `Rc`/`Arc` allocation: the stored value, its strong count, and
the number of outstanding `Weak` handles to it. Rust's `RcInner` stores
`strong` and `weak`, where `weak` is the number of `Weak`s plus an implicit
one held collectively by the strong handles; `weakRefs` here is the number of
outstanding `Weak`s, so "no `Weak` pointers" is `weakRefs = 0`. -/

/-- One reference-counted allocation. -/
structure RcCell (V : Type) where
  value : V
  strong : Nat
  weakRefs : Nat
deriving DecidableEq

/-- The heap of reference-counted allocations: address to cell. -/
abbrev RcHeap (V : Type) :=
  List (Nat × RcCell V)

/-- Look up the cell at an address. -/
def lookupCell {V : Type} : RcHeap V → Nat → Option (RcCell V)
  | [], _ => none
  | e :: rest, a => if e.1 = a then some e.2 else lookupCell rest a

/-- Rewrite the cell at an address in place. -/
def mapCell {V : Type} : RcHeap V → Nat → (RcCell V → RcCell V) → RcHeap V
  | [], _, _ => []
  | e :: rest, a, f => (if e.1 = a then (e.1, f e.2) else e) :: mapCell rest a f

/-- Deallocate the cell at an address. -/
def removeCell {V : Type} : RcHeap V → Nat → RcHeap V
  | [], _ => []
  | e :: rest, a => if e.1 = a then removeCell rest a else e :: removeCell rest a

/-- Increment the strong count at an address (what `Rc::clone` /
`Arc::clone` do to the allocation). -/
def incStrong {V : Type} (h : RcHeap V) (a : Nat) : RcHeap V :=
  mapCell h a fun c => { c with strong := c.strong + 1 }

/-- Rust's `Rc::is_unique` / `Arc::is_unique`: the allocation at `a` has
strong count one and no outstanding `Weak` references. -/
def isUniqueCell {V : Type} (h : RcHeap V) (a : Nat) : Bool :=
  match lookupCell h a with
  | some c => c.strong == 1 && c.weakRefs == 0
  | none => false

/-! ### Conversion operations, one set per representation

`DefaultPointerOps<&'a T>` (`src/pointer_ops.rs` lines 99-112). -/

/-- `from_raw` for `&'a T`: `&*raw`. -/
def Ref.from_raw {V : Type} (raw : RawPtr) : Ref V :=
  ⟨raw⟩

/-- `into_raw` for `&'a T`: the reference itself as `*const T`. -/
def Ref.into_raw {V : Type} (r : Ref V) : RawPtr :=
  r.ptr

/-- `from_raw` for `Pin<&'a T>` (lines 114-127): `Pin::new_unchecked(&*raw)`. -/
def pinRefFromRaw {V : Type} (raw : RawPtr) : Pin (Ref V) :=
  Pin.new_unchecked (Ref.from_raw raw)

/-- `into_raw` for `Pin<&'a T>`: `Pin::into_inner_unchecked(ptr) as *const T`. -/
def pinRefIntoRaw {V : Type} (p : Pin (Ref V)) : RawPtr :=
  Ref.into_raw (Pin.into_inner_unchecked p)

/-- `UnsafeRef::from_raw` (`src/unsafe_ref.rs` lines 39-43):
`NonNull::new_unchecked(val as *mut _)`; precondition `val.addr ≠ 0`. Also
the body of `from_raw` for `DefaultPointerOps<UnsafeRef<T>>` (lines 134-136),
whose `raw as *mut T` cast changes neither half of the pointer. -/
def UnsafeRef.from_raw {V : Type} (val : RawPtr) : UnsafeRef V :=
  ⟨val⟩

/-- `UnsafeRef::into_raw` (lines 47-49): `ptr.ptr.as_ptr()`. -/
def UnsafeRef.into_raw {V : Type} (p : UnsafeRef V) : RawPtr :=
  p.ptr

/-- `Clone for UnsafeRef` (lines 74-79): copies the address only, touching no
count and no heap. -/
def UnsafeRef.clone {V : Type} (p : UnsafeRef V) : UnsafeRef V :=
  ⟨p.ptr⟩

/-- `from_raw` for `Pin<UnsafeRef<T>>` (lines 149-151). -/
def pinUnsafeRefFromRaw {V : Type} (raw : RawPtr) : Pin (UnsafeRef V) :=
  Pin.new_unchecked (UnsafeRef.from_raw raw)

/-- `into_raw` for `Pin<UnsafeRef<T>>` (lines 154-156). -/
def pinUnsafeRefIntoRaw {V : Type} (p : Pin (UnsafeRef V)) : RawPtr :=
  UnsafeRef.into_raw (Pin.into_inner_unchecked p)

/-- `UnsafeMut::from_raw` (`src/unsafe_ref.rs` lines 137-141); precondition
`val.addr ≠ 0`. -/
def UnsafeMut.from_raw {V : Type} (val : RawPtr) : UnsafeMut V :=
  ⟨val⟩

/-- `UnsafeMut::into_raw` (lines 145-147). -/
def UnsafeMut.into_raw {V : Type} (p : UnsafeMut V) : RawPtr :=
  p.ptr

/-- `from_raw` for `Pin<UnsafeMut<T>>` (`src/pointer_ops.rs` lines 181-183). -/
def pinUnsafeMutFromRaw {V : Type} (raw : RawPtr) : Pin (UnsafeMut V) :=
  Pin.new_unchecked (UnsafeMut.from_raw raw)

/-- `into_raw` for `Pin<UnsafeMut<T>>` (lines 186-188). -/
def pinUnsafeMutIntoRaw {V : Type} (p : Pin (UnsafeMut V)) : RawPtr :=
  UnsafeMut.into_raw (Pin.into_inner_unchecked p)

/-- `from_raw` for `Box<T>` (lines 199-201): `Box::from_raw(raw as *mut T)`,
which takes ownership of the allocation at that address without moving it. -/
def Box.from_raw {V : Type} (raw : RawPtr) : Box V :=
  ⟨raw⟩

/-- `into_raw` for `Box<T>` (lines 204-206): `Box::into_raw(ptr)`, releasing
the allocation address without deallocating. -/
def Box.into_raw {V : Type} (b : Box V) : RawPtr :=
  b.ptr

/-- `from_raw` for `Pin<Box<T>>` (lines 218-220). -/
def pinBoxFromRaw {V : Type} (raw : RawPtr) : Pin (Box V) :=
  Pin.new_unchecked (Box.from_raw raw)

/-- `into_raw` for `Pin<Box<T>>` (lines 223-225). -/
def pinBoxIntoRaw {V : Type} (p : Pin (Box V)) : RawPtr :=
  Box.into_raw (Pin.into_inner_unchecked p)

/-- `from_raw` for `Rc<T>` (lines 237-239): `Rc::from_raw(raw)`; reconstructs
the handle from the address of the managed value, adjusting no count. -/
def Rc.from_raw {V : Type} (raw : RawPtr) : Rc V :=
  ⟨raw⟩

/-- `into_raw` for `Rc<T>` (lines 242-244): `Rc::into_raw(ptr)`; consumes the
handle without running its destructor, adjusting no count. -/
def Rc.into_raw {V : Type} (r : Rc V) : RawPtr :=
  r.ptr

/-- `Rc::clone`: a new handle to the same allocation; the allocation's strong
count is incremented. -/
def Rc.clone {V : Type} (h : RcHeap V) (r : Rc V) : Rc V × RcHeap V :=
  (⟨r.ptr⟩, incStrong h r.ptr.addr)

/-- Dropping an `Rc` handle: the strong count is decremented; when the last
strong handle goes and no `Weak` is left the allocation is freed (with a
`Weak` left, only the value is considered dropped: the cell stays with strong
count zero, as Rust keeps the allocation for the weak count). -/
def Rc.dropHandle {V : Type} (h : RcHeap V) (r : Rc V) : RcHeap V :=
  match lookupCell h r.ptr.addr with
  | none => h
  | some c =>
    if c.strong ≤ 1 then
      if c.weakRefs = 0 then removeCell h r.ptr.addr
      else mapCell h r.ptr.addr fun c0 => { c0 with strong := 0 }
    else mapCell h r.ptr.addr fun c0 => { c0 with strong := c0.strong - 1 }

/-- `Rc::get_mut(&mut rc)`: `Some` of a mutable pointer to the managed value
exactly when the handle is unique — strong count one and no outstanding
`Weak` (Rust: "if there are no other `Rc` or `Weak` pointers to the same
allocation"). The returned pointer is the allocation's own address. -/
def Rc.get_mut {V : Type} (h : RcHeap V) (r : Rc V) : Option RawPtr :=
  if isUniqueCell h r.ptr.addr then some r.ptr else none

/-- `from_raw` for `Pin<Rc<T>>` (lines 264-266). -/
def pinRcFromRaw {V : Type} (raw : RawPtr) : Pin (Rc V) :=
  Pin.new_unchecked (Rc.from_raw raw)

/-- `into_raw` for `Pin<Rc<T>>` (lines 269-271). -/
def pinRcIntoRaw {V : Type} (p : Pin (Rc V)) : RawPtr :=
  Rc.into_raw (Pin.into_inner_unchecked p)

/-- `from_raw` for `Arc<T>` (lines 291-293). -/
def Arc.from_raw {V : Type} (raw : RawPtr) : Arc V :=
  ⟨raw⟩

/-- `into_raw` for `Arc<T>` (lines 296-298). -/
def Arc.into_raw {V : Type} (r : Arc V) : RawPtr :=
  r.ptr

/-- `Arc::clone`: new handle, strong count incremented (atomically in Rust;
the fetch-add is a plain increment in this sequential model). -/
def Arc.clone {V : Type} (h : RcHeap V) (r : Arc V) : Arc V × RcHeap V :=
  (⟨r.ptr⟩, incStrong h r.ptr.addr)

/-- Dropping an `Arc` handle; same count discipline as `Rc.dropHandle`. -/
def Arc.dropHandle {V : Type} (h : RcHeap V) (r : Arc V) : RcHeap V :=
  match lookupCell h r.ptr.addr with
  | none => h
  | some c =>
    if c.strong ≤ 1 then
      if c.weakRefs = 0 then removeCell h r.ptr.addr
      else mapCell h r.ptr.addr fun c0 => { c0 with strong := 0 }
    else mapCell h r.ptr.addr fun c0 => { c0 with strong := c0.strong - 1 }

/-- `Arc::get_mut`: `Some` exactly when the handle is unique, via the
representation's own (atomic, in Rust) uniqueness check. -/
def Arc.get_mut {V : Type} (h : RcHeap V) (r : Arc V) : Option RawPtr :=
  if isUniqueCell h r.ptr.addr then some r.ptr else none

/-- `from_raw` for `Pin<Arc<T>>` (lines 318-320). -/
def pinArcFromRaw {V : Type} (raw : RawPtr) : Pin (Arc V) :=
  Pin.new_unchecked (Arc.from_raw raw)

/-- `into_raw` for `Pin<Arc<T>>` (lines 323-325). -/
def pinArcIntoRaw {V : Type} (p : Pin (Arc V)) : RawPtr :=
  Arc.into_raw (Pin.into_inner_unchecked p)

/-! ### The try-exclusive implementations

`try_get_mut` for `DefaultPointerOps<Rc<T>>` (`src/pointer_ops.rs` lines
248-256), and the textually identical bodies for `Pin<Rc<T>>` (275-283),
`Arc<T>` (302-310) and `Pin<Arc<T>>` (329-337). Each reconstructs a
temporary handle with `from_raw`, asks the representation's `get_mut`, then
releases the temporary with `into_raw` (so its destructor never runs and no
count moves); the result is the optional mutable pointer, and the heap after
the call. -/

/-- `DefaultPointerOps<Rc<T>>::try_get_mut`. -/
def rcTryGetMut {V : Type} (h : RcHeap V) (value : RawPtr) : Option RawPtr × RcHeap V :=
  let rc : Rc V := Rc.from_raw value
  let ptr := Rc.get_mut h rc
  let _raw := Rc.into_raw rc
  (ptr, h)

/-- `DefaultPointerOps<Pin<Rc<T>>>::try_get_mut` (same body as the unpinned
implementation). -/
def pinRcTryGetMut {V : Type} (h : RcHeap V) (value : RawPtr) : Option RawPtr × RcHeap V :=
  let rc : Rc V := Rc.from_raw value
  let ptr := Rc.get_mut h rc
  let _raw := Rc.into_raw rc
  (ptr, h)

/-- `DefaultPointerOps<Arc<T>>::try_get_mut`. -/
def arcTryGetMut {V : Type} (h : RcHeap V) (value : RawPtr) : Option RawPtr × RcHeap V :=
  let arc : Arc V := Arc.from_raw value
  let ptr := Arc.get_mut h arc
  let _raw := Arc.into_raw arc
  (ptr, h)

/-- `DefaultPointerOps<Pin<Arc<T>>>::try_get_mut` (same body as the unpinned
implementation). -/
def pinArcTryGetMut {V : Type} (h : RcHeap V) (value : RawPtr) : Option RawPtr × RcHeap V :=
  let arc : Arc V := Arc.from_raw value
  let ptr := Arc.get_mut h arc
  let _raw := Arc.into_raw arc
  (ptr, h)

/-! ### The capability traits

`TryExclusivePointerOps` and `ExclusivePointerOps` (`src/pointer_ops.rs`
lines 47-70), as records of operations. The Rust signatures take only the
raw pointer (the heap is ambient there), so the records do too. -/

/-- The default body of `ExclusivePointerOps::get_mut` (lines 61-64):
`value as *mut Self::Value` — the const-to-mut cast, which changes neither
half of the pointer. -/
def defaultGetMut (value : RawPtr) : RawPtr :=
  value

/-- The `ExclusivePointerOps` trait: `get_mut`, whose default implementation
is the cast `defaultGetMut`. Every implementation in the source
(`DefaultPointerOps` of `UnsafeMut`, `Pin<UnsafeMut>`, `Box`, `Pin<Box>`,
lines 174, 191, 210, 229) is an empty `impl` block, so each uses the
default. -/
structure ExclusiveOps where
  get_mut : RawPtr → RawPtr := defaultGetMut

/-- The `TryExclusivePointerOps` trait: `try_get_mut`. -/
structure TryExclusiveOps where
  try_get_mut : RawPtr → Option RawPtr

/-- The blanket derivation `impl<E: ExclusivePointerOps>
TryExclusivePointerOps for E` (lines 66-70): `try_get_mut` is
`Some(self.get_mut(value))`. One definition, applied to every exclusive
implementation. -/
def deriveTryExclusive (E : ExclusiveOps) : TryExclusiveOps :=
  ⟨fun value => some (E.get_mut value)⟩

/-- `ExclusivePointerOps for DefaultPointerOps<Box<T>>` (line 210): empty
impl, default `get_mut`. -/
def boxExclusive : ExclusiveOps :=
  {}

/-- `ExclusivePointerOps for DefaultPointerOps<Pin<Box<T>>>` (line 229). -/
def pinBoxExclusive : ExclusiveOps :=
  {}

/-- `ExclusivePointerOps for DefaultPointerOps<UnsafeMut<T>>` (line 174). -/
def unsafeMutExclusive : ExclusiveOps :=
  {}

/-- `ExclusivePointerOps for DefaultPointerOps<Pin<UnsafeMut<T>>>`
(line 191). -/
def pinUnsafeMutExclusive : ExclusiveOps :=
  {}

/-! ### The guarded clone (`clone_pointer_from_raw`, lines 344-376)

The body builds a `PointerGuard` holding `ManuallyDrop::new(from_raw ptr)`,
calls `.clone()` on the held handle, and lets the guard's `Drop` run
`into_raw` on the held handle on every exit path — normal return or panic
unwinding out of `clone` — so the temporary handle's destructor never runs
and the temporary never decrements the slot's count. -/

/-- `clone_pointer_from_raw` instantiated at `DefaultPointerOps<Rc<T>>`,
normal (non-panicking) execution: the new handle, and the heap after. -/
def rcClonePointerFromRaw {V : Type} (h : RcHeap V) (ptr : RawPtr) : Rc V × RcHeap V :=
  let holder : Rc V := Rc.from_raw ptr
  let cloned := Rc.clone h holder
  let _raw := Rc.into_raw holder
  (cloned.1, cloned.2)

/-- `clone_pointer_from_raw` instantiated at `DefaultPointerOps<Arc<T>>`,
normal execution. -/
def arcClonePointerFromRaw {V : Type} (h : RcHeap V) (ptr : RawPtr) : Arc V × RcHeap V :=
  let holder : Arc V := Arc.from_raw ptr
  let cloned := Arc.clone h holder
  let _raw := Arc.into_raw holder
  (cloned.1, cloned.2)

/-- The observable steps of one `clone_pointer_from_raw` call. `destructEv`
would be the temporary handle's destructor (an `Rc` drop, decrementing the
strong count); the point of the `ManuallyDrop` + guard construction is that
it never happens. -/
inductive CloneEv
  | fromRawEv
  | cloneEv
  | intoRawEv
  | destructEv
deriving DecidableEq

/-- `clone_pointer_from_raw` at `DefaultPointerOps<Rc<T>>` with its control
flow made explicit: `panics` says whether the `Clone` implementation raises a
panic (an arbitrary `Clone` may; the panic is modelled as raised before the
count is touched). On panic, unwinding drops the `PointerGuard`, whose
`Drop` runs `into_raw` on the held handle (`src/pointer_ops.rs` lines
359-369); the result is `none` (the panic propagates), the heap as it was,
and the trace of steps. On normal return the guard's `Drop` runs the same
`into_raw` after the clone. -/
def rcClonePointerFromRawTraced {V : Type} (h : RcHeap V) (ptr : RawPtr)
    (panics : Bool) : Option (Rc V) × RcHeap V × List CloneEv :=
  let holder : Rc V := Rc.from_raw ptr
  if panics then
    let _raw := Rc.into_raw holder
    (none, h, [CloneEv.fromRawEv, CloneEv.cloneEv, CloneEv.intoRawEv])
  else
    let cloned := Rc.clone h holder
    let _raw := Rc.into_raw holder
    (some cloned.1, cloned.2, [CloneEv.fromRawEv, CloneEv.cloneEv, CloneEv.intoRawEv])

/-- `clone_pointer_from_raw` at `DefaultPointerOps<Arc<T>>` with explicit
control flow; see `rcClonePointerFromRawTraced`. -/
def arcClonePointerFromRawTraced {V : Type} (h : RcHeap V) (ptr : RawPtr)
    (panics : Bool) : Option (Arc V) × RcHeap V × List CloneEv :=
  let holder : Arc V := Arc.from_raw ptr
  if panics then
    let _raw := Arc.into_raw holder
    (none, h, [CloneEv.fromRawEv, CloneEv.cloneEv, CloneEv.intoRawEv])
  else
    let cloned := Arc.clone h holder
    let _raw := Arc.into_raw holder
    (some cloned.1, cloned.2, [CloneEv.fromRawEv, CloneEv.cloneEv, CloneEv.intoRawEv])

/-! ### The box heap and the unchecked wrappers' reclamation behaviour

For `Box` and the unchecked wrappers the observable resource state is which
addresses are allocated: an association list from addresses to values. -/

/-- The heap of uniquely-owned allocations. -/
abbrev BoxHeap (V : Type) :=
  List (Nat × V)

/-- Look up the value at an address. -/
def BoxHeap.lookup {V : Type} : BoxHeap V → Nat → Option V
  | [], _ => none
  | e :: rest, a => if e.1 = a then some e.2 else BoxHeap.lookup rest a

/-- Deallocate the allocation at an address. -/
def BoxHeap.free {V : Type} : BoxHeap V → Nat → BoxHeap V
  | [], _ => []
  | e :: rest, a => if e.1 = a then BoxHeap.free rest a else e :: BoxHeap.free rest a

/-- Dropping a `Box`: its destructor deallocates the owned allocation. -/
def Box.dropBox {V : Type} (h : BoxHeap V) (b : Box V) : BoxHeap V :=
  BoxHeap.free h b.ptr.addr

/-- Dropping an `UnsafeRef` wrapper. `UnsafeRef` has no `Drop`
implementation and its one field `NonNull<T>` has no drop glue
(`src/unsafe_ref.rs`: "no automatic reclamation on destruction"), so letting
a wrapper go out of scope does nothing to the heap. -/
def UnsafeRef.dropWrapper {V : Type} (h : BoxHeap V) (_p : UnsafeRef V) : BoxHeap V :=
  h

/-- Dropping an `UnsafeMut` wrapper: likewise no `Drop` implementation. -/
def UnsafeMut.dropWrapper {V : Type} (h : BoxHeap V) (_p : UnsafeMut V) : BoxHeap V :=
  h

/-- `UnsafeRef::into_box` (`src/unsafe_ref.rs` lines 69-71):
`Box::from_raw(UnsafeRef::into_raw(ptr))` — the explicit reclaiming
conversion back to an owning allocation. -/
def UnsafeRef.into_box {V : Type} (p : UnsafeRef V) : Box V :=
  Box.from_raw (UnsafeRef.into_raw p)

/-- `UnsafeMut::into_box` (lines 167-169). -/
def UnsafeMut.into_box {V : Type} (p : UnsafeMut V) : Box V :=
  Box.from_raw (UnsafeMut.into_raw p)

/-! ### Heap lemmas -/

/-- Looking up the rewritten address after `mapCell` sees the rewritten
cell. -/
theorem lookupCell_mapCell_self {V : Type} (h : RcHeap V) (a : Nat)
    (f : RcCell V → RcCell V) :
    lookupCell (mapCell h a f) a = (lookupCell h a).map f := by
  induction h with
  | nil => rfl
  | cons e rest ih =>
    by_cases hea : e.1 = a
    · simp [mapCell, lookupCell, hea]
    · simp [mapCell, lookupCell, hea, ih]

/-- `mapCell` leaves every other address unchanged. -/
theorem lookupCell_mapCell_ne {V : Type} (h : RcHeap V) (a b : Nat)
    (f : RcCell V → RcCell V) (hba : b ≠ a) :
    lookupCell (mapCell h a f) b = lookupCell h b := by
  have hab : ¬(a = b) := fun hh => hba hh.symm
  induction h with
  | nil => rfl
  | cons e rest ih =>
    by_cases hea : e.1 = a
    · simp [mapCell, lookupCell, hea, hab, ih]
    · simp [mapCell, lookupCell, hea, ih]

/-- Dropping a list of `UnsafeRef` wrappers leaves the heap untouched. -/
theorem foldl_dropWrapper_ref {V : Type} (h : BoxHeap V) (ps : List (UnsafeRef V)) :
    ps.foldl UnsafeRef.dropWrapper h = h := by
  induction ps with
  | nil => rfl
  | cons p rest ih => simpa [UnsafeRef.dropWrapper] using ih

/-- Dropping a list of `UnsafeMut` wrappers leaves the heap untouched. -/
theorem foldl_dropWrapper_mut {V : Type} (h : BoxHeap V) (ps : List (UnsafeMut V)) :
    ps.foldl UnsafeMut.dropWrapper h = h := by
  induction ps with
  | nil => rfl
  | cons p rest ih => simpa [UnsafeMut.dropWrapper] using ih

/-- After `BoxHeap.free` the address is no longer allocated. -/
theorem BoxHeap.lookup_free {V : Type} (h : BoxHeap V) (a : Nat) :
    BoxHeap.lookup (BoxHeap.free h a) a = none := by
  induction h with
  | nil => rfl
  | cons e rest ih =>
    by_cases hea : e.1 = a
    · simp [BoxHeap.free, hea, ih]
    · simp [BoxHeap.free, BoxHeap.lookup, hea, ih]

/-! ### The claims -/

/-- C1: for every supported pointer representation (borrowed reference, Box,
Rc, Arc, UnsafeRef, UnsafeMut, and their pinned variants) and every handle
`h`, `from_raw (into_raw h)` is an identity: the reconstructed handle refers
to the same object at the same address, and the metadata half of the raw
pointer (the pair for a dynamically-sized value) is preserved bit-for-bit
across the round trip. -/
theorem c1_round_trip_identity {V : Type} (r : Ref V) (pr : Pin (Ref V)) (b : Box V)
    (pb : Pin (Box V)) (u : UnsafeRef V) (pu : Pin (UnsafeRef V)) (w : UnsafeMut V)
    (pw : Pin (UnsafeMut V)) (rc : Rc V) (prc : Pin (Rc V)) (ac : Arc V)
    (pac : Pin (Arc V)) (p : RawPtr) :
    Ref.from_raw (Ref.into_raw r) = r ∧
    pinRefFromRaw (pinRefIntoRaw pr) = pr ∧
    Box.from_raw (Box.into_raw b) = b ∧
    pinBoxFromRaw (pinBoxIntoRaw pb) = pb ∧
    UnsafeRef.from_raw (UnsafeRef.into_raw u) = u ∧
    pinUnsafeRefFromRaw (pinUnsafeRefIntoRaw pu) = pu ∧
    UnsafeMut.from_raw (UnsafeMut.into_raw w) = w ∧
    pinUnsafeMutFromRaw (pinUnsafeMutIntoRaw pw) = pw ∧
    Rc.from_raw (Rc.into_raw rc) = rc ∧
    pinRcFromRaw (pinRcIntoRaw prc) = prc ∧
    Arc.from_raw (Arc.into_raw ac) = ac ∧
    pinArcFromRaw (pinArcIntoRaw pac) = pac ∧
    (Box.from_raw (V := V) (Box.into_raw b)).ptr.addr = b.ptr.addr ∧
    (Rc.from_raw (V := V) (Rc.into_raw rc)).ptr.metadata = rc.ptr.metadata ∧
    Box.into_raw (Box.from_raw (V := V) p) = p ∧
    (Box.into_raw (Box.from_raw (V := V) p)).metadata = p.metadata :=
  ⟨rfl, rfl, rfl, rfl, rfl, rfl, rfl, rfl, rfl, rfl, rfl, rfl, rfl, rfl, rfl, rfl⟩

/-- C5: every pointer representation implementing the exclusive-access
capability satisfies the try-exclusive capability through the single blanket
derivation `deriveTryExclusive`, and under that derivation `try_get_mut p`
always returns a present result equal to `get_mut p`, for every exclusive
implementation `E` and every input address `p`. -/
theorem c5_exclusive_derives_try_exclusive (E : ExclusiveOps) (p : RawPtr) :
    (deriveTryExclusive E).try_get_mut p = some (E.get_mut p) ∧
    ((deriveTryExclusive E).try_get_mut p).isSome = true :=
  ⟨rfl, rfl⟩

/-- C6: `try_get_mut` has no observable effect on ownership bookkeeping: for
every reference-counted representation (Rc, Arc, pinned or not) and every
stored raw address, the heap after the call — hence every allocation's strong
and weak count — and the stored address are exactly what they were before. -/
theorem c6_try_get_mut_frame {V : Type} (h : RcHeap V) (p : RawPtr) :
    (rcTryGetMut h p).2 = h ∧
    (arcTryGetMut h p).2 = h ∧
    (pinRcTryGetMut h p).2 = h ∧
    (pinArcTryGetMut h p).2 = h ∧
    ((rcTryGetMut h p).2.map fun e => (e.1, e.2.strong, e.2.weakRefs)) =
      (h.map fun e => (e.1, e.2.strong, e.2.weakRefs)) ∧
    lookupCell (arcTryGetMut h p).2 p.addr = lookupCell h p.addr :=
  ⟨rfl, rfl, rfl, rfl, rfl, rfl⟩

/-- C7: dropping any number of `UnsafeRef` or `UnsafeMut` wrappers around one
address never deallocates or mutates anything in the heap; the explicit
conversion back to an owning allocation (`into_box`), once the resulting
`Box` is dropped, is what deallocates. -/
theorem c7_unchecked_drop_never_deallocates {V : Type} (h : BoxHeap V)
    (us : List (UnsafeRef V)) (ms : List (UnsafeMut V)) (u : UnsafeRef V)
    (w : UnsafeMut V) :
    us.foldl UnsafeRef.dropWrapper h = h ∧
    ms.foldl UnsafeMut.dropWrapper h = h ∧
    UnsafeRef.dropWrapper h (UnsafeRef.clone u) = h ∧
    BoxHeap.lookup (Box.dropBox h (UnsafeRef.into_box u)) u.ptr.addr = none ∧
    BoxHeap.lookup (Box.dropBox h (UnsafeMut.into_box w)) w.ptr.addr = none :=
  ⟨foldl_dropWrapper_ref h us, foldl_dropWrapper_mut h ms, rfl,
    BoxHeap.lookup_free h u.ptr.addr, BoxHeap.lookup_free h w.ptr.addr⟩

/-- C8: the default `get_mut` of the exclusive-access capability returns the
input address itself reinterpreted as mutable: for every uniquely-owned
representation using the default (`Box`, `UnsafeMut` and their pinned
variants, all of whose impl blocks are empty) and every raw address `p`,
`get_mut p` succeeds unconditionally and the returned mutable pointer equals
`p`. -/
theorem c8_default_get_mut_identity (p : RawPtr) :
    defaultGetMut p = p ∧
    boxExclusive.get_mut p = p ∧
    pinBoxExclusive.get_mut p = p ∧
    unsafeMutExclusive.get_mut p = p ∧
    pinUnsafeMutExclusive.get_mut p = p :=
  ⟨rfl, rfl, rfl, rfl, rfl⟩

/-- C9: for the unchecked wrappers the conversion is an identity in the
address-to-handle-to-address direction as well: for every non-null raw
pointer `p`, `UnsafeRef.into_raw (UnsafeRef.from_raw p) = p` and
`UnsafeMut.into_raw (UnsafeMut.from_raw p) = p`, without requiring that `p`
was previously produced by `into_raw`. -/
theorem c9_unchecked_raw_round_trip {V : Type} (p : RawPtr) (_hp : p.addr ≠ 0) :
    UnsafeRef.into_raw (UnsafeRef.from_raw (V := V) p) = p ∧
    UnsafeMut.into_raw (UnsafeMut.from_raw (V := V) p) = p :=
  ⟨rfl, rfl⟩

/-- C9 witness: the round trip at the concrete non-null pointer (1, 0). -/
theorem c9_unchecked_raw_round_trip_witness :
    (RawPtr.mk 1 0).addr ≠ 0 ∧
    UnsafeRef.into_raw (UnsafeRef.from_raw (V := Nat) ⟨1, 0⟩) = ⟨1, 0⟩ :=
  ⟨by decide, (c9_unchecked_raw_round_trip (V := Nat) ⟨1, 0⟩ (by decide)).1⟩

/-- C10: whenever `try_get_mut` for the Rc or Arc representation (pinned or
not) returns a present result, the returned mutable pointer equals the input
raw address: the result is either absent or exactly the input pointer. -/
theorem c10_try_get_mut_aliases_input {V : Type} (h : RcHeap V) (p : RawPtr) :
    ((rcTryGetMut h p).1 = none ∨ (rcTryGetMut h p).1 = some p) ∧
    ((arcTryGetMut h p).1 = none ∨ (arcTryGetMut h p).1 = some p) ∧
    ((pinRcTryGetMut h p).1 = none ∨ (pinRcTryGetMut h p).1 = some p) ∧
    ((pinArcTryGetMut h p).1 = none ∨ (pinArcTryGetMut h p).1 = some p) := by
  by_cases hq : isUniqueCell h p.addr <;>
    simp [rcTryGetMut, arcTryGetMut, pinRcTryGetMut, pinArcTryGetMut, Rc.get_mut,
      Arc.get_mut, Rc.from_raw, Arc.from_raw, Rc.into_raw, Arc.into_raw, hq]

/-- C2: in `clone_pointer_from_raw`, the `into_raw` release of the temporary
reconstructed handle runs on every exit path — on normal return and when the
Clone step panics; in the panic case the heap (hence the stored slot's strong
count) is unchanged from before the attempt, the temporary handle's
destructor never runs, no handle is returned, and the original slot is still
allocated and still resolvable by `from_raw`. -/
theorem c2_guard_release_on_panic {V : Type} (h : RcHeap V) (p : RawPtr) (c : RcCell V)
    (hc : lookupCell h p.addr = some c) :
    (∀ panics : Bool,
      CloneEv.intoRawEv ∈ (rcClonePointerFromRawTraced h p panics).2.2 ∧
      CloneEv.destructEv ∉ (rcClonePointerFromRawTraced h p panics).2.2 ∧
      CloneEv.intoRawEv ∈ (arcClonePointerFromRawTraced h p panics).2.2 ∧
      CloneEv.destructEv ∉ (arcClonePointerFromRawTraced h p panics).2.2) ∧
    (rcClonePointerFromRawTraced h p true).2.1 = h ∧
    (rcClonePointerFromRawTraced h p true).1 = none ∧
    lookupCell (rcClonePointerFromRawTraced h p true).2.1 p.addr = some c ∧
    Rc.into_raw (Rc.from_raw (V := V) p) = p ∧
    (arcClonePointerFromRawTraced h p true).2.1 = h ∧
    lookupCell (arcClonePointerFromRawTraced h p true).2.1 p.addr = some c := by
  refine ⟨?_, rfl, rfl, hc, rfl, rfl, hc⟩
  intro panics
  cases panics <;>
    simp [rcClonePointerFromRawTraced, arcClonePointerFromRawTraced]

/-- C2 witness: one allocation at address 0 with strong count 1; a panicking
clone attempt leaves the heap exactly as it was. -/
def c2Heap : RcHeap Nat :=
  [(0, ⟨37, 1, 0⟩)]

/-- C2 witness theorem. -/
theorem c2_guard_release_on_panic_witness :
    lookupCell c2Heap (RawPtr.mk 0 0).addr = some ⟨37, 1, 0⟩ ∧
    (rcClonePointerFromRawTraced c2Heap ⟨0, 0⟩ true).2.1 = c2Heap :=
  ⟨by decide, (c2_guard_release_on_panic c2Heap ⟨0, 0⟩ ⟨37, 1, 0⟩ (by decide)).2.1⟩

/-- The heap refuting C3 as stated: one allocation at address 0 holding 42
with exactly one strong reference but one outstanding `Weak` reference. -/
def rcWeakHeap : RcHeap Nat :=
  [(0, ⟨42, 1, 1⟩)]

/-- C3 counterexample: on `rcWeakHeap` the strong count of the stored slot is
exactly 1, yet `try_get_mut` (Rc and Arc alike) returns an absent result —
`Rc::get_mut` also requires that no `Weak` reference exists — refuting
"present if and only if the strong count is exactly 1". -/
theorem c3_counterexample_weak_ref :
    (lookupCell rcWeakHeap 0).map RcCell.strong = some 1 ∧
    (rcTryGetMut rcWeakHeap ⟨0, 0⟩).1 = none ∧
    (arcTryGetMut rcWeakHeap ⟨0, 0⟩).1 = none := by
  decide

/-- C3 (amended): for the reference-counted representations (Rc and Arc,
pinned or not), `try_get_mut` on a stored raw address returns a present
result if and only if the strong count is exactly 1 and there is no
outstanding weak reference; in the absence of weak references the claimed
scenario holds: with exactly one strong reference the result is present,
after a second strong reference is created it is absent, and after that
second reference is dropped it is present again. -/
theorem c3_amended_try_exclusive {V : Type} (h : RcHeap V) (a m : Nat) (c : RcCell V)
    (hc : lookupCell h a = some c) :
    ((rcTryGetMut h ⟨a, m⟩).1.isSome = true ↔ c.strong = 1 ∧ c.weakRefs = 0) ∧
    ((arcTryGetMut h ⟨a, m⟩).1.isSome = true ↔ c.strong = 1 ∧ c.weakRefs = 0) ∧
    ((pinRcTryGetMut h ⟨a, m⟩).1.isSome = true ↔ c.strong = 1 ∧ c.weakRefs = 0) ∧
    ((pinArcTryGetMut h ⟨a, m⟩).1.isSome = true ↔ c.strong = 1 ∧ c.weakRefs = 0) ∧
    (c.strong = 1 → c.weakRefs = 0 →
      (rcTryGetMut h ⟨a, m⟩).1 = some ⟨a, m⟩ ∧
      (rcTryGetMut (Rc.clone h (Rc.from_raw ⟨a, m⟩)).2 ⟨a, m⟩).1 = none ∧
      (rcTryGetMut
        (Rc.dropHandle (Rc.clone h (Rc.from_raw ⟨a, m⟩)).2
          (Rc.clone h (Rc.from_raw ⟨a, m⟩)).1) ⟨a, m⟩).1 = some ⟨a, m⟩ ∧
      (arcTryGetMut h ⟨a, m⟩).1 = some ⟨a, m⟩ ∧
      (arcTryGetMut (Arc.clone h (Arc.from_raw ⟨a, m⟩)).2 ⟨a, m⟩).1 = none ∧
      (arcTryGetMut
        (Arc.dropHandle (Arc.clone h (Arc.from_raw ⟨a, m⟩)).2
          (Arc.clone h (Arc.from_raw ⟨a, m⟩)).1) ⟨a, m⟩).1 = some ⟨a, m⟩) := by
  have hu : isUniqueCell h a = (c.strong == 1 && c.weakRefs == 0) := by
    simp [isUniqueCell, hc]
  have hl1 : lookupCell (incStrong h a) a = some { c with strong := c.strong + 1 } := by
    rw [incStrong, lookupCell_mapCell_self, hc]; rfl
  have hu1 : isUniqueCell (incStrong h a) a =
      ((c.strong + 1) == 1 && c.weakRefs == 0) := by
    simp [isUniqueCell, hl1]
  have hiff : ∀ o : Option RawPtr,
      o = (if isUniqueCell h a then some ⟨a, m⟩ else none) →
      (o.isSome = true ↔ c.strong = 1 ∧ c.weakRefs = 0) := by
    intro o ho
    subst ho
    rw [hu]
    by_cases h1 : c.strong = 1 <;> by_cases h2 : c.weakRefs = 0 <;> simp [h1, h2]
  refine ⟨hiff _ rfl, hiff _ rfl, hiff _ rfl, hiff _ rfl, ?_⟩
  intro hs hw
  have hpresent : (if isUniqueCell h a then some (RawPtr.mk a m) else none) =
      some ⟨a, m⟩ := by
    rw [hu, hs, hw]; rfl
  have habsent : (if isUniqueCell (incStrong h a) a then some (RawPtr.mk a m)
      else none) = none := by
    rw [hu1, hs]; rfl
  have hdrop : ∀ g : RcCell V → RcCell V, g = (fun c0 => { c0 with strong := c0.strong - 1 }) →
      lookupCell (mapCell (incStrong h a) a g) a = some c := by
    intro g hg
    subst hg
    rw [lookupCell_mapCell_self, hl1]
    simp
  have hmatch : ∀ hp : RcHeap V, lookupCell hp a = some { c with strong := c.strong + 1 } →
      (match lookupCell hp a with
        | none => hp
        | some c1 =>
          if c1.strong ≤ 1 then
            if c1.weakRefs = 0 then removeCell hp a
            else mapCell hp a fun c0 => { c0 with strong := 0 }
          else mapCell hp a fun c0 => { c0 with strong := c0.strong - 1 }) =
      mapCell hp a fun c0 => { c0 with strong := c0.strong - 1 } := by
    intro hp hl
    rw [hl]
    have : ¬({ c with strong := c.strong + 1 } : RcCell V).strong ≤ 1 := by
      simp [hs]
    simp [this]
  have hdropped : lookupCell
      (Rc.dropHandle (incStrong h a) (Rc.mk (V := V) ⟨a, m⟩)) a = some c := by
    rw [Rc.dropHandle]
    rw [hmatch _ hl1]
    exact hdrop _ rfl
  have hdroppedArc : lookupCell
      (Arc.dropHandle (incStrong h a) (Arc.mk (V := V) ⟨a, m⟩)) a = some c := by
    rw [Arc.dropHandle]
    rw [hmatch _ hl1]
    exact hdrop _ rfl
  have hfinal : ∀ hp : RcHeap V, lookupCell hp a = some c →
      (if isUniqueCell hp a then some (RawPtr.mk a m) else none) = some ⟨a, m⟩ := by
    intro hp hl
    have : isUniqueCell hp a = (c.strong == 1 && c.weakRefs == 0) := by
      simp [isUniqueCell, hl]
    rw [this, hs, hw]; rfl
  exact ⟨hpresent, habsent, hfinal _ hdropped, hpresent, habsent, hfinal _ hdroppedArc⟩

/-- C3 (amended) witness heap: one allocation at address 0 holding 7 with one
strong reference and no weak references. -/
def c3Heap : RcHeap Nat :=
  [(0, ⟨7, 1, 0⟩)]

/-- C3 (amended) witness: on `c3Heap` the hypothesis holds at the concrete
cell and `try_get_mut` is present. -/
theorem c3_amended_try_exclusive_witness :
    lookupCell c3Heap 0 = some ⟨7, 1, 0⟩ ∧
    (rcTryGetMut c3Heap ⟨0, 5⟩).1 = some ⟨0, 5⟩ :=
  ⟨by decide,
    ((c3_amended_try_exclusive c3Heap 0 5 ⟨7, 1, 0⟩ (by decide)).2.2.2.2
      (by decide) (by decide)).1⟩

/-- C4: after a normal return of `clone_pointer_from_raw` on a stored raw
address of a reference-counted representation (Rc or Arc), the slot's strong
count is exactly one greater than before, every other allocation is
untouched, the returned handle is a new owning handle to the same object (its
pointer equals the input address), and the original slot's address is
unchanged and remains resolvable by a subsequent `from_raw`. -/
theorem c4_clone_from_raw_increments {V : Type} (h : RcHeap V) (a m : Nat) (c : RcCell V)
    (hc : lookupCell h a = some c) :
    (rcClonePointerFromRaw h ⟨a, m⟩).1.ptr = ⟨a, m⟩ ∧
    lookupCell (rcClonePointerFromRaw h ⟨a, m⟩).2 a = some { c with strong := c.strong + 1 } ∧
    (∀ b, b ≠ a → lookupCell (rcClonePointerFromRaw h ⟨a, m⟩).2 b = lookupCell h b) ∧
    Rc.into_raw (Rc.from_raw (V := V) ⟨a, m⟩) = ⟨a, m⟩ ∧
    (arcClonePointerFromRaw h ⟨a, m⟩).1.ptr = ⟨a, m⟩ ∧
    lookupCell (arcClonePointerFromRaw h ⟨a, m⟩).2 a = some { c with strong := c.strong + 1 } ∧
    (∀ b, b ≠ a → lookupCell (arcClonePointerFromRaw h ⟨a, m⟩).2 b = lookupCell h b) ∧
    Arc.into_raw (Arc.from_raw (V := V) ⟨a, m⟩) = ⟨a, m⟩ := by
  have hself : lookupCell (incStrong h a) a = some { c with strong := c.strong + 1 } := by
    rw [incStrong, lookupCell_mapCell_self, hc]; rfl
  have hother : ∀ b, b ≠ a → lookupCell (incStrong h a) b = lookupCell h b := fun b hb =>
    lookupCell_mapCell_ne h a b _ hb
  exact ⟨rfl, hself, hother, rfl, rfl, hself, hother, rfl⟩

/-- C4 witness heap: the slot at address 0 holds 41 with strong count 1; a
second unrelated allocation sits at address 3. -/
def c4Heap : RcHeap Nat :=
  [(0, ⟨41, 1, 0⟩), (3, ⟨9, 5, 2⟩)]

/-- C4 witness: cloning from the raw address 0 bumps its strong count from 1
to 2. -/
theorem c4_clone_from_raw_increments_witness :
    lookupCell c4Heap 0 = some ⟨41, 1, 0⟩ ∧
    lookupCell (rcClonePointerFromRaw c4Heap ⟨0, 0⟩).2 0 = some ⟨41, 2, 0⟩ :=
  ⟨by decide, (c4_clone_from_raw_increments c4Heap 0 0 ⟨41, 1, 0⟩ (by decide)).2.1⟩

end Intrusive
